import Mathlib

/-!
Verification of the mail dispatch queue of `src/app.py`.

The embedding models the asynchronous email subsystem of the Flask form
backend: the module-level `email_queue` (an unbounded FIFO `Queue`), the
producer `queue_email_task`, the consumer loop `background_email_worker`,
and the per-task delivery operation `send_confirmation_email_async`.

Modelling choices, each traced to the source:
* A queue item is `Option Task`: `some (to_email, name)` is the tuple put
  by `queue_email_task` (app.py line 419), `none` is the `None` sentinel
  checked at line 393.
* `send_confirmation_email_async` (lines 303-385) wraps its whole body in
  `try/except`, catching `SMTPAuthenticationError`, `SMTPException` and
  `Exception`, and returns `False` on every failure path (including the
  missing-credentials early return), `True` only on a completed send.  It
  therefore never raises; we embed it as a total `Bool`-valued function
  over an abstract transport outcome.
* `background_email_worker` (lines 387-405) is driven by the results of
  `email_queue.get(timeout=30)`: either an item or the `Empty` exception.
  We embed one iteration per element of a finite trace of `WorkerEvent`s
  (`timeout` for `Empty`, `got x` for a dequeued item) and return the list
  of delivery attempts made, in order, together with whether the loop was
  exited via `break`.
* `queue_email_task` (lines 412-424) acts on a `World` holding the queue,
  the (to it irrelevant) mail-transport behaviour, and a flag `putRaises`
  saying whether `email_queue.put` raises, matching its `try/except`.
-/

namespace FormBackend

/-- A delivery task as enqueued at app.py line 419: the `(to_email, name)`
tuple. -/
abbrev Task := String × String

/-- An item of `email_queue`: a task, or the `None` shutdown sentinel. -/
abbrev QItem := Option Task

/-- Abstract outcome of one SMTP conversation, covering the exception
handlers of `send_confirmation_email_async` (app.py lines 377-385). -/
inductive SmtpOutcome
  | delivered
  | authError
  | smtpError
  | otherError
deriving DecidableEq, Repr

/-- `send_confirmation_email_async` (app.py lines 303-385).  `cfg` is the
truth of `EMAIL_USER and EMAIL_PASSWORD`; `outcome` is what the transport
does.  Every exception handler of the source returns `False`, so the
embedding is a total `Bool`-valued function. -/
def send_confirmation_email_async (cfg : Bool) (outcome : SmtpOutcome) : Bool :=
  if cfg = false then false
  else
    match outcome with
    | .delivered => true
    | .authError => false
    | .smtpError => false
    | .otherError => false

/-- Process state visible to the mail dispatch queue: the module-level
`email_queue` (head = front), the behaviour of the mail transport
(which recipient/name pair yields which SMTP outcome), and whether
`email_queue.put` raises (the `except` branch at app.py line 422; an
unbounded `Queue.put` does not raise in normal operation, but the source
guards for it). -/
structure World where
  email_queue : List QItem
  transport : String → String → SmtpOutcome
  putRaises : Bool

/-- `queue_email_task` (app.py lines 412-424): reject an empty `to_email`
before touching the queue; otherwise `put` the tuple and return `True`,
with any exception from `put` caught and turned into `False`. -/
def queue_email_task (to_email name : String) (w : World) : Bool × World :=
  if to_email = "" then
    (false, w)
  else if w.putRaises then
    (false, w)
  else
    (true, { w with email_queue := w.email_queue ++ [some (to_email, name)] })

/-- One observed result of `email_queue.get(timeout=30)` inside
`background_email_worker`: either the `Empty` exception after an idle
timeout, or a dequeued item. -/
inductive WorkerEvent
  | timeout
  | got (item : QItem)
deriving DecidableEq, Repr

/-- One delivery attempt performed by the worker: the task's fields and
the boolean returned by `send_confirmation_email_async`. -/
structure Attempt where
  to_email : String
  name : String
  result : Bool
deriving DecidableEq, Repr

/-- `background_email_worker` (app.py lines 387-405), run over a finite
trace of `get` results.  Returns the delivery attempts made, in order,
and whether the loop was exited by the sentinel `break` (line 394).
`Empty` is caught and the loop continues (lines 400-402); a dequeued task
is passed to `send_confirmation_email_async`, whose result is discarded
by the worker, and the loop continues regardless of that result
(lines 396-398). -/
def background_email_worker (cfg : Bool) (tr : String → String → SmtpOutcome) :
    List WorkerEvent → List Attempt × Bool
  | [] => ([], false)
  | WorkerEvent.timeout :: rest => background_email_worker cfg tr rest
  | WorkerEvent.got none :: _ => ([], true)
  | WorkerEvent.got (some t) :: rest =>
    let r := send_confirmation_email_async cfg (tr t.1 t.2)
    let p := background_email_worker cfg tr rest
    (⟨t.1, t.2, r⟩ :: p.1, p.2)

/-- The trace of `get` results produced by draining a FIFO queue snapshot
front to back, with no idle timeouts interleaved. -/
def eventsOfQueue (q : List QItem) : List WorkerEvent :=
  q.map WorkerEvent.got

/-- The delivery attempt a given task gives rise to. -/
def attemptOf (cfg : Bool) (tr : String → String → SmtpOutcome) (t : Task) : Attempt :=
  ⟨t.1, t.2, send_confirmation_email_async cfg (tr t.1 t.2)⟩

/-- The delivery attempts a queue snapshot gives rise to: one per task,
none for a sentinel. -/
def attemptsOf (cfg : Bool) (tr : String → String → SmtpOutcome) (q : List QItem) :
    List Attempt :=
  q.filterMap fun x => x.map (attemptOf cfg tr)

/-- Modelled from the spec: a `stop()` shutdown hook is described in the
spec (it "enqueues the sentinel") but is absent from `src/app.py`; we
model it as placing the `None` sentinel at the queue tail. -/
def stop (w : World) : World :=
  { w with email_queue := w.email_queue ++ [none] }

/-! ## Basic unfolding lemmas for the worker loop -/

theorem worker_nil (cfg : Bool) (tr : String → String → SmtpOutcome) :
    background_email_worker cfg tr [] = ([], false) := rfl

theorem worker_timeout (cfg : Bool) (tr : String → String → SmtpOutcome)
    (rest : List WorkerEvent) :
    background_email_worker cfg tr (WorkerEvent.timeout :: rest) =
      background_email_worker cfg tr rest := rfl

theorem worker_sentinel (cfg : Bool) (tr : String → String → SmtpOutcome)
    (rest : List WorkerEvent) :
    background_email_worker cfg tr (WorkerEvent.got none :: rest) = ([], true) := rfl

theorem worker_task (cfg : Bool) (tr : String → String → SmtpOutcome)
    (t : Task) (rest : List WorkerEvent) :
    background_email_worker cfg tr (WorkerEvent.got (some t) :: rest) =
      (⟨t.1, t.2, send_confirmation_email_async cfg (tr t.1 t.2)⟩ ::
        (background_email_worker cfg tr rest).1,
       (background_email_worker cfg tr rest).2) := rfl

/-- Draining a sentinel-free queue prefix: the worker attempts each of its
tasks in order and then behaves as it would on the remaining trace. -/
theorem worker_drain_append (cfg : Bool) (tr : String → String → SmtpOutcome)
    (q : List QItem) (hq : none ∉ q) (evs : List WorkerEvent) :
    background_email_worker cfg tr (eventsOfQueue q ++ evs) =
      (attemptsOf cfg tr q ++ (background_email_worker cfg tr evs).1,
       (background_email_worker cfg tr evs).2) := by
  induction q with
  | nil => simp [eventsOfQueue, attemptsOf]
  | cons x rest ih =>
    match x with
    | none => exact absurd (List.mem_cons_self none rest) hq
    | some t =>
      have hrest : none ∉ rest := fun h => hq (List.mem_cons_of_mem _ h)
      simp only [eventsOfQueue, List.map_cons, List.cons_append, worker_task,
        attemptsOf, List.filterMap_cons]
      rw [eventsOfQueue] at ih
      rw [ih hrest]
      simp [attemptsOf, attemptOf]

/-- The worker drains a sentinel-free queue completely: one attempt per
task, in order, and the loop is not exited. -/
theorem worker_drain (cfg : Bool) (tr : String → String → SmtpOutcome)
    (q : List QItem) (hq : none ∉ q) :
    background_email_worker cfg tr (eventsOfQueue q) = (attemptsOf cfg tr q, false) := by
  have h := worker_drain_append cfg tr q hq []
  simpa [worker_nil] using h

/-! ## Claim theorems -/

/-- C2: for every displayName, calling enqueue with an empty recipient
returns `false`, leaves the queue (and the whole world) untouched, and
hence changes nothing about the worker's future delivery attempts. -/
theorem enqueue_empty_recipient_rejected (name : String) (w : World) :
    queue_email_task "" name w = (false, w) ∧
    ∀ cfg, background_email_worker cfg w.transport
        (eventsOfQueue (queue_email_task "" name w).2.email_queue) =
      background_email_worker cfg w.transport (eventsOfQueue w.email_queue) := by
  refine ⟨by simp [queue_email_task], fun cfg => ?_⟩
  simp [queue_email_task]

/-- C3: for every non-empty recipient and every displayName, enqueue
appends exactly the task `(to_email, name)` at the queue tail, returns
`true`, and the queue length grows by exactly one. -/
theorem enqueue_appends_one_task (to_email name : String) (w : World)
    (hr : to_email ≠ "") (hp : w.putRaises = false) :
    queue_email_task to_email name w =
      (true, { w with email_queue := w.email_queue ++ [some (to_email, name)] }) ∧
    (queue_email_task to_email name w).2.email_queue.length =
      w.email_queue.length + 1 := by
  refine ⟨by simp [queue_email_task, hr, hp], ?_⟩
  simp [queue_email_task, hr, hp]

theorem enqueue_appends_one_task_witness :
    ("a@x.com" : String) ≠ "" ∧
    (⟨[], fun _ _ => SmtpOutcome.delivered, false⟩ : World).putRaises = false ∧
    (queue_email_task "a@x.com" "Alice"
        ⟨[], fun _ _ => SmtpOutcome.delivered, false⟩ =
      (true, { (⟨[], fun _ _ => SmtpOutcome.delivered, false⟩ : World) with
                email_queue := [] ++ [some ("a@x.com", "Alice")] }) ∧
     (queue_email_task "a@x.com" "Alice"
        ⟨[], fun _ _ => SmtpOutcome.delivered, false⟩).2.email_queue.length =
      ([] : List QItem).length + 1) :=
  ⟨by decide, rfl,
   enqueue_appends_one_task "a@x.com" "Alice" _ (by decide) rfl⟩

/-- C8: the result of enqueue (both the returned boolean and the queue it
leaves behind) does not depend on the mail transport's behaviour at all:
replacing the transport by any other (unreachable, slow, failing) changes
nothing.  Together with `queue_email_task` being a total function, this
is the embedding of "enqueue returns promptly regardless of the
transport and never blocks on delivery". -/
theorem enqueue_independent_of_transport (to_email name : String) (w : World)
    (tr2 : String → String → SmtpOutcome) :
    (queue_email_task to_email name { w with transport := tr2 }).1 =
      (queue_email_task to_email name w).1 ∧
    (queue_email_task to_email name { w with transport := tr2 }).2.email_queue =
      (queue_email_task to_email name w).2.email_queue := by
  by_cases h : to_email = "" <;> by_cases hp : w.putRaises <;>
    simp [queue_email_task, h, hp]

/-- C9: enqueue is total toward its caller: even when `email_queue.put`
raises, the exception is caught and converted into a plain `false`
return, with the world unchanged. -/
theorem enqueue_catches_put_exception (to_email name : String) (w : World)
    (hp : w.putRaises = true) :
    queue_email_task to_email name w = (false, w) := by
  by_cases h : to_email = "" <;> simp [queue_email_task, h, hp]

theorem enqueue_catches_put_exception_witness :
    (⟨[], fun _ _ => SmtpOutcome.delivered, true⟩ : World).putRaises = true ∧
    queue_email_task "a@x.com" "Alice"
        ⟨[], fun _ _ => SmtpOutcome.delivered, true⟩ =
      (false, ⟨[], fun _ _ => SmtpOutcome.delivered, true⟩) :=
  ⟨rfl, enqueue_catches_put_exception "a@x.com" "Alice" _ rfl⟩

/-- C10: enqueue only ever adds `some`-items: the queue after an enqueue
is either unchanged or extended by a `(recipient, displayName)` pair, so
a producer can never insert the `None` sentinel and a sentinel-free queue
stays sentinel-free. -/
theorem enqueue_never_inserts_sentinel (to_email name : String) (w : World)
    (hq : none ∉ w.email_queue) :
    ((queue_email_task to_email name w).2.email_queue = w.email_queue ∨
     (queue_email_task to_email name w).2.email_queue =
       w.email_queue ++ [some (to_email, name)]) ∧
    none ∉ (queue_email_task to_email name w).2.email_queue := by
  by_cases h : to_email = "" <;> by_cases hp : w.putRaises <;>
    simp [queue_email_task, h, hp, hq]

theorem enqueue_never_inserts_sentinel_witness :
    none ∉ (⟨[], fun _ _ => SmtpOutcome.delivered, false⟩ : World).email_queue ∧
    (((queue_email_task "a@x.com" "Alice"
          ⟨[], fun _ _ => SmtpOutcome.delivered, false⟩).2.email_queue =
        (⟨[], fun _ _ => SmtpOutcome.delivered, false⟩ : World).email_queue ∨
      (queue_email_task "a@x.com" "Alice"
          ⟨[], fun _ _ => SmtpOutcome.delivered, false⟩).2.email_queue =
        (⟨[], fun _ _ => SmtpOutcome.delivered, false⟩ : World).email_queue ++
          [some ("a@x.com", "Alice")]) ∧
     none ∉ (queue_email_task "a@x.com" "Alice"
        ⟨[], fun _ _ => SmtpOutcome.delivered, false⟩).2.email_queue) :=
  ⟨by simp, enqueue_never_inserts_sentinel "a@x.com" "Alice" _ (by simp)⟩

/-- C1: a failed delivery attempt does not escape the worker loop: after
the attempt for the dequeued task (recorded with result `false`), the
worker processes the remaining trace exactly as it would have anyway, so
the next dequeued task is attempted without any restart. -/
theorem worker_survives_failed_attempt (cfg : Bool)
    (tr : String → String → SmtpOutcome) (t : Task) (rest : List WorkerEvent)
    (hfail : send_confirmation_email_async cfg (tr t.1 t.2) = false) :
    background_email_worker cfg tr (WorkerEvent.got (some t) :: rest) =
      (⟨t.1, t.2, false⟩ :: (background_email_worker cfg tr rest).1,
       (background_email_worker cfg tr rest).2) := by
  rw [worker_task, hfail]

theorem worker_survives_failed_attempt_witness :
    send_confirmation_email_async true
        ((fun _ _ => SmtpOutcome.authError) "b@x.com" "Bob") = false ∧
    background_email_worker true (fun _ _ => SmtpOutcome.authError)
        (WorkerEvent.got (some ("b@x.com", "Bob")) ::
          [WorkerEvent.got (some ("c@x.com", "Carol"))]) =
      (⟨"b@x.com", "Bob", false⟩ ::
        (background_email_worker true (fun _ _ => SmtpOutcome.authError)
          [WorkerEvent.got (some ("c@x.com", "Carol"))]).1,
       (background_email_worker true (fun _ _ => SmtpOutcome.authError)
          [WorkerEvent.got (some ("c@x.com", "Carol"))]).2) :=
  ⟨rfl, worker_survives_failed_attempt true (fun _ _ => SmtpOutcome.authError)
    ("b@x.com", "Bob") [WorkerEvent.got (some ("c@x.com", "Carol"))] rfl⟩

/-- C4: FIFO ordering for a single producer: if, starting from a
sentinel-free queue, one producer enqueues task `(r1, n1)` and then task
`(r2, n2)`, the worker's attempt list on the resulting queue is the
attempts for the old queue followed by the attempt for `(r1, n1)` and
then the attempt for `(r2, n2)` — so T1's attempt comes strictly before
T2's. -/
theorem single_producer_fifo_order (cfg : Bool) (r1 n1 r2 n2 : String) (w : World)
    (h1 : r1 ≠ "") (h2 : r2 ≠ "") (hp : w.putRaises = false)
    (hq : none ∉ w.email_queue) :
    background_email_worker cfg w.transport
        (eventsOfQueue
          (queue_email_task r2 n2 (queue_email_task r1 n1 w).2).2.email_queue) =
      (attemptsOf cfg w.transport w.email_queue ++
        [attemptOf cfg w.transport (r1, n1), attemptOf cfg w.transport (r2, n2)],
       false) := by
  have e1 : (queue_email_task r1 n1 w).2 =
      { w with email_queue := w.email_queue ++ [some (r1, n1)] } := by
    simp [queue_email_task, h1, hp]
  have e2 : (queue_email_task r2 n2 (queue_email_task r1 n1 w).2).2.email_queue =
      w.email_queue ++ [some (r1, n1), some (r2, n2)] := by
    rw [e1]
    simp [queue_email_task, h2, hp]
  rw [e2]
  have hq2 : none ∉ w.email_queue ++ [some (r1, n1), some (r2, n2)] := by
    simp [hq]
  rw [worker_drain cfg w.transport _ hq2]
  simp [attemptsOf, attemptOf]

theorem single_producer_fifo_order_witness :
    ("a@x.com" : String) ≠ "" ∧ ("b@x.com" : String) ≠ "" ∧
    (⟨[], fun _ _ => SmtpOutcome.delivered, false⟩ : World).putRaises = false ∧
    none ∉ (⟨[], fun _ _ => SmtpOutcome.delivered, false⟩ : World).email_queue ∧
    background_email_worker true
        (⟨[], fun _ _ => SmtpOutcome.delivered, false⟩ : World).transport
        (eventsOfQueue
          (queue_email_task "b@x.com" "Bob"
            (queue_email_task "a@x.com" "Alice"
              ⟨[], fun _ _ => SmtpOutcome.delivered, false⟩).2).2.email_queue) =
      (attemptsOf true
          (⟨[], fun _ _ => SmtpOutcome.delivered, false⟩ : World).transport
          (⟨[], fun _ _ => SmtpOutcome.delivered, false⟩ : World).email_queue ++
        [attemptOf true
           (⟨[], fun _ _ => SmtpOutcome.delivered, false⟩ : World).transport
           ("a@x.com", "Alice"),
         attemptOf true
           (⟨[], fun _ _ => SmtpOutcome.delivered, false⟩ : World).transport
           ("b@x.com", "Bob")],
       false) :=
  ⟨by decide, by decide, rfl, by simp,
   single_producer_fifo_order true "a@x.com" "Alice" "b@x.com" "Bob"
     ⟨[], fun _ _ => SmtpOutcome.delivered, false⟩
     (by decide) (by decide) rfl (by simp)⟩

/-- C5: after `stop` places the sentinel at the tail of a sentinel-free
queue, the worker performs exactly the attempts for the tasks that were
already queued, then exits its loop (`break`), and nothing dequeued after
the sentinel — not even further tasks — is ever attempted. -/
theorem stop_terminates_worker (cfg : Bool) (w : World)
    (hq : none ∉ w.email_queue) (extra : List WorkerEvent) :
    background_email_worker cfg w.transport
        (eventsOfQueue (stop w).email_queue ++ extra) =
      (attemptsOf cfg w.transport w.email_queue, true) := by
  have hsplit : eventsOfQueue (stop w).email_queue ++ extra =
      eventsOfQueue w.email_queue ++ (WorkerEvent.got none :: extra) := by
    simp [stop, eventsOfQueue]
  rw [hsplit, worker_drain_append cfg w.transport _ hq, worker_sentinel]
  simp

theorem stop_terminates_worker_witness :
    none ∉ (⟨[some ("a@x.com", "Alice")], fun _ _ => SmtpOutcome.delivered,
              false⟩ : World).email_queue ∧
    background_email_worker true
        (⟨[some ("a@x.com", "Alice")], fun _ _ => SmtpOutcome.delivered,
           false⟩ : World).transport
        (eventsOfQueue
            (stop ⟨[some ("a@x.com", "Alice")],
              fun _ _ => SmtpOutcome.delivered, false⟩).email_queue ++
          [WorkerEvent.got (some ("b@x.com", "Bob"))]) =
      (attemptsOf true
        (⟨[some ("a@x.com", "Alice")], fun _ _ => SmtpOutcome.delivered,
           false⟩ : World).transport
        (⟨[some ("a@x.com", "Alice")], fun _ _ => SmtpOutcome.delivered,
           false⟩ : World).email_queue, true) :=
  ⟨by simp,
   stop_terminates_worker true
     ⟨[some ("a@x.com", "Alice")], fun _ _ => SmtpOutcome.delivered, false⟩
     (by simp) [WorkerEvent.got (some ("b@x.com", "Bob"))]⟩

/-- C6: no retry, at most one attempt per accepted task: draining a queue
of tasks yields exactly one attempt per queue entry, in order, whatever
the transport outcomes are — dropped tasks are never re-enqueued — and a
delivery failure is reported as a returned `false`, never as an
exception: every non-delivered outcome makes
`send_confirmation_email_async` return `false`. -/
theorem each_task_attempted_at_most_once (cfg : Bool)
    (tr : String → String → SmtpOutcome) (tasks : List Task) :
    (background_email_worker cfg tr (eventsOfQueue (tasks.map some))).1 =
      tasks.map (attemptOf cfg tr) ∧
    ∀ c, send_confirmation_email_async c SmtpOutcome.authError = false ∧
      send_confirmation_email_async c SmtpOutcome.smtpError = false ∧
      send_confirmation_email_async c SmtpOutcome.otherError = false := by
  constructor
  · have hq : none ∉ tasks.map some := by simp
    rw [worker_drain cfg tr _ hq]
    simp [attemptsOf, List.filterMap_map, Function.comp]
  · intro c
    cases c <;> simp [send_confirmation_email_async]

/-- C7: the idle timeout is not an error and does not stop the worker: a
`queue.Empty` timeout leaves the worker's behaviour on the rest of the
trace unchanged, and any number of consecutive idle timeouts produces no
attempt and does not terminate the loop. -/
theorem idle_timeout_continues (cfg : Bool)
    (tr : String → String → SmtpOutcome) (rest : List WorkerEvent) :
    background_email_worker cfg tr (WorkerEvent.timeout :: rest) =
      background_email_worker cfg tr rest ∧
    ∀ n, background_email_worker cfg tr (List.replicate n WorkerEvent.timeout) =
      ([], false) := by
  refine ⟨worker_timeout cfg tr rest, fun n => ?_⟩
  induction n with
  | zero => rfl
  | succ k ih => rw [List.replicate_succ, worker_timeout, ih]

end FormBackend
